import Mathlib

set_option maxRecDepth 100000

/-!
# Verification of the agent-kit memory subsystem

Shallow embedding of the memory subsystem of the `agent-kit` repository:

* `Template` — the long-term memory of `templates/basic-agent/src/memory.ts`
  (`LongTermMemory.store/search/decay/embed`, `cosineSimilarity`, `hash`).
* `ShortTerm` — the working-context buffer of the same file
  (`ShortTermMemory.add/compactIfNeeded/getTokenCount`).
* `Guide` — the long-term memory, episodic memory and orchestrator of
  `guide/03-memory.md` (`LongTermMemory`, `EpisodicMemory`, `AgentMemory`).

Modelling conventions:

* JavaScript numbers that hold integers/timestamps/importances are modelled as
  `ℚ` (or `ℕ` where the code only ever holds naturals); similarity scores,
  which involve square roots, are modelled as exact reals `ℝ`.  Float32
  round-tripping of stored embeddings is modelled as exact (the spec's
  "round-trips exactly" contract).
* 32-bit JavaScript integer arithmetic (`| 0`, `<< 5`) is modelled on `ℤ`
  with explicit reduction modulo `2^32`.
* SQLite tables are modelled as lists of rows in rowid order;
  `INSERT OR REPLACE` deletes the conflicting row and appends a fresh one
  (fresh rowid), and `SELECT *` returns rows in list order.
* Strings are Lean `String`s; the examples used in concrete theorems are
  ASCII, where JavaScript UTF-16 code units, Lean `Char`s and SQLite text
  agree.
-/

-- ─── SHA-256 (Node's `createHash('sha256')`, used for record ids) ─────────

namespace SHA256

def M32 : ℕ := 2 ^ 32

def rotr (n x : ℕ) : ℕ := (x / 2 ^ n + x % 2 ^ n * 2 ^ (32 - n)) % M32

def shr (n x : ℕ) : ℕ := x / 2 ^ n

def bnot32 (x : ℕ) : ℕ := (M32 - 1) - x % M32

def bigSigma0 (x : ℕ) : ℕ := rotr 2 x ^^^ rotr 13 x ^^^ rotr 22 x

def bigSigma1 (x : ℕ) : ℕ := rotr 6 x ^^^ rotr 11 x ^^^ rotr 25 x

def smallSigma0 (x : ℕ) : ℕ := rotr 7 x ^^^ rotr 18 x ^^^ shr 3 x

def smallSigma1 (x : ℕ) : ℕ := rotr 17 x ^^^ rotr 19 x ^^^ shr 10 x

def ch (x y z : ℕ) : ℕ := (x &&& y) ^^^ (bnot32 x &&& z)

def maj (x y z : ℕ) : ℕ := (x &&& y) ^^^ (x &&& z) ^^^ (y &&& z)

/-- The first 64 primes.  SHA-256's round constants are the first 32
fractional bits of their cube roots, and its initial state the first 32
fractional bits of the square roots of the first eight. -/
def primes64 : List ℕ :=
  [2, 3, 5, 7, 11, 13, 17, 19, 23, 29, 31, 37, 41, 43, 47, 53,
   59, 61, 67, 71, 73, 79, 83, 89, 97, 101, 103, 107, 109, 113, 127, 131,
   137, 139, 149, 151, 157, 163, 167, 173, 179, 181, 191, 193, 197, 199, 211, 223,
   227, 229, 233, 239, 241, 251, 257, 263, 269, 271, 277, 281, 283, 293, 307, 311]

/-- Integer cube root (of arguments below `2^108`) by binary descent. -/
def icbrt (n : ℕ) : ℕ :=
  (List.range 36).foldl
    (fun r i => let c := r + 2 ^ (35 - i); if c * c * c ≤ n then c else r) 0

/-- Integer square root (of arguments below `2^72`) by binary descent. -/
def isqrt (n : ℕ) : ℕ :=
  (List.range 36).foldl
    (fun r i => let c := r + 2 ^ (35 - i); if c * c ≤ n then c else r) 0

def fracSqrtWord (p : ℕ) : ℕ := isqrt (p * 2 ^ 64) % M32

def fracCbrtWord (p : ℕ) : ℕ := icbrt (p * 2 ^ 96) % M32

def initH : List ℕ := (primes64.take 8).map fracSqrtWord

def roundK : List ℕ := primes64.map fracCbrtWord

/-- Message padding: append `0x80`, zeros up to 56 mod 64, then the bit
length as eight big-endian bytes. -/
def padBytes (msg : List ℕ) : List ℕ :=
  let bitLen := 8 * msg.length
  let zeros := (64 + 56 - (msg.length + 1) % 64) % 64
  msg ++ [0x80] ++ List.replicate zeros 0 ++
    (List.range 8).map (fun i => bitLen / 2 ^ (8 * (7 - i)) % 256)

/-- Split a padded byte list into 64-byte blocks. -/
def blocks (l : List ℕ) : List (List ℕ) :=
  (List.range (l.length / 64)).map (fun i => (l.drop (64 * i)).take 64)

/-- Four big-endian bytes each into one 32-bit word. -/
def toWords (block : List ℕ) : List ℕ :=
  (List.range (block.length / 4)).map (fun i =>
    block.getD (4 * i) 0 * 2 ^ 24 + block.getD (4 * i + 1) 0 * 2 ^ 16 +
    block.getD (4 * i + 2) 0 * 2 ^ 8 + block.getD (4 * i + 3) 0)

/-- Message schedule: expand 16 words to 64. -/
def schedule (w : List ℕ) : List ℕ :=
  (List.range 64).foldl
    (fun acc i =>
      if i < 16 then acc ++ [w.getD i 0]
      else acc ++ [(smallSigma1 (acc.getD (i - 2) 0) + acc.getD (i - 7) 0 +
                    smallSigma0 (acc.getD (i - 15) 0) + acc.getD (i - 16) 0) % M32])
    []

/-- One compression round on the eight-word working state. -/
def round1 (st : List ℕ) (ki wi : ℕ) : List ℕ :=
  let a := st.getD 0 0
  let b := st.getD 1 0
  let c := st.getD 2 0
  let d := st.getD 3 0
  let e := st.getD 4 0
  let f := st.getD 5 0
  let g := st.getD 6 0
  let h := st.getD 7 0
  let t1 := (h + bigSigma1 e + ch e f g + ki + wi) % M32
  let t2 := (bigSigma0 a + maj a b c) % M32
  [(t1 + t2) % M32, a, b, c, (d + t1) % M32, e, f, g]

def compress (hs : List ℕ) (block : List ℕ) : List ℕ :=
  let w := schedule (toWords block)
  let st := (List.range 64).foldl
    (fun st i => round1 st (roundK.getD i 0) (w.getD i 0)) hs
  (hs.zip st).map (fun p => (p.1 + p.2) % M32)

def sha256Words (msg : List ℕ) : List ℕ :=
  (blocks (padBytes msg)).foldl compress initH

def hexDigit (n : ℕ) : Char :=
  if n < 10 then Char.ofNat (48 + n) else Char.ofNat (87 + n)

def wordHex (w : ℕ) : List Char :=
  ((List.range 8).map (fun i => hexDigit (w / 16 ^ (7 - i) % 16)))

/-- UTF-8 encoding of one code point. -/
def utf8Bytes (c : Char) : List ℕ :=
  let n := c.toNat
  if n < 0x80 then [n]
  else if n < 0x800 then [0xc0 + n / 64, 0x80 + n % 64]
  else if n < 0x10000 then [0xe0 + n / 4096, 0x80 + n / 64 % 64, 0x80 + n % 64]
  else [0xf0 + n / 262144, 0x80 + n / 4096 % 64, 0x80 + n / 64 % 64, 0x80 + n % 64]

def strBytes (s : String) : List ℕ := (s.data.map utf8Bytes).flatten

/-- `createHash('sha256').update(s).digest('hex')` over the UTF-8 bytes. -/
def sha256Hex (s : String) : String :=
  ⟨((sha256Words (strBytes s)).map wordHex).flatten⟩

end SHA256

-- ─── Shared utilities of both memory implementations ──────────────────────

/-- JavaScript `| 0`: reduce an integer to the signed 32-bit range. -/
def toInt32 (n : ℤ) : ℤ := (n + 2 ^ 31) % 2 ^ 32 - 2 ^ 31

/-- The `hash` function of `memory.ts` (`simpleHash` in the guide):
`h = ((h << 5) - h + str.charCodeAt(i)) | 0` folded over the string.
ASCII characters have one UTF-16 code unit equal to their code point. -/
def jsHash (s : List Char) : ℤ :=
  s.foldl (fun h c => toInt32 (toInt32 (h * 32) - h + (c.toNat : ℤ))) 0

/-- Character trigrams: `normalized.slice(i, i + 3)` for `0 ≤ i < length - 2`. -/
def trigrams : List Char → List (List Char)
  | a :: b :: c :: rest => [a, b, c] :: trigrams (b :: c :: rest)
  | _ => []

/-- `text.toLowerCase()` character by character (`Char.toLower` agrees on the
ASCII range used throughout). -/
def lowerChars (l : List Char) : List Char := l.map Char.toLower

/-- `text.trim()`: drop whitespace from both ends. -/
def trimChars (l : List Char) : List Char :=
  ((l.dropWhile Char.isWhitespace).reverse.dropWhile Char.isWhitespace).reverse

/-- Maximal runs of non-whitespace characters. -/
def wsWords (l : List Char) : List (List Char) :=
  (l.foldr (fun c acc =>
    if c.isWhitespace then [] :: acc
    else match acc with
      | [] => [[c]]
      | w :: ws => (c :: w) :: ws) []).filter (· ≠ [])

/-- JavaScript `s.split(/\s+/)` on an already-trimmed string: splits on runs
of whitespace; the empty string yields `[""]`. -/
def splitWs (l : List Char) : List (List Char) :=
  if l = [] then [[]] else wsWords l

/-- `vec[Math.abs(h) % dimension] += (h > 0 ? 1 : -1) * w` on a dense vector. -/
def applyFeature (d : ℕ) (w : ℤ) (h : ℤ) (vec : List ℤ) : List ℤ :=
  let idx := h.natAbs % d
  vec.set idx (vec.getD idx 0 + (if 0 < h then w else -w))

/-- Sum of squares of an integer accumulator vector. -/
def sumSq (v : List ℤ) : ℤ := (v.map (fun x => x * x)).sum

/-- L2 normalization: `mag = sqrt(Σ vᵢ²); if (mag > 0) vᵢ /= mag`. -/
noncomputable def l2normalize (v : List ℤ) : List ℝ :=
  let mag : ℝ := Real.sqrt ((sumSq v : ℤ) : ℝ)
  if 0 < mag then v.map (fun x : ℤ => (x : ℝ) / mag) else v.map (fun x : ℤ => (x : ℝ))

/-- `Σ a[i]*b[i]` over the common length. -/
def dotR (a b : List ℝ) : ℝ := ((a.zip b).map (fun p => p.1 * p.2)).sum

/-- `Σ v[i]²`. -/
def sumSqR (v : List ℝ) : ℝ := (v.map (fun x => x * x)).sum

/-- Euclidean norm of a real vector. -/
noncomputable def l2norm (v : List ℝ) : ℝ := Real.sqrt (sumSqR v)

/-- `cosineSimilarity` of `memory.ts` (and the guide): dot product over
`magA * magB`, and `0` when either magnitude is zero (`magA && magB`).
All call sites pass two vectors of the same dimension. -/
noncomputable def cosineSimilarity (a b : List ℝ) : ℝ :=
  let magA := Real.sqrt (sumSqR a)
  let magB := Real.sqrt (sumSqR b)
  if magA = 0 ∨ magB = 0 then 0 else dotR a b / (magA * magB)

-- Classical choice is used only to decide propositions on exact reals
-- (JavaScript compares floats); all integer/rational logic stays decidable.
open Classical

section StableSort

variable {α : Type}

/-- One step of the stable sort performed by JavaScript
`sort((a, b) => b.similarity - a.similarity)`: an element moves before the
first element of strictly smaller score, staying after equal scores. -/
noncomputable def insertScoreDesc (score : α → ℝ) (x : α) : List α → List α
  | [] => [x]
  | y :: ys => if score x < score y then y :: insertScoreDesc score x ys
               else x :: y :: ys

/-- Stable sort by descending score (JavaScript `Array.prototype.sort` is
stable). -/
noncomputable def sortScoreDesc (score : α → ℝ) : List α → List α
  | [] => []
  | x :: xs => insertScoreDesc score x (sortScoreDesc score xs)

end StableSort

section LexSortDefs

variable {α : Type}

/-- Insertion into a list ordered by strictly descending `(score, original
row position)` — the explicit tie-break formulation of the amended claim. -/
noncomputable def insertLexDesc (score : α → ℝ) (x : ℕ × α) :
    List (ℕ × α) → List (ℕ × α)
  | [] => [x]
  | y :: ys =>
      if score x.2 < score y.2 ∨ (score x.2 = score y.2 ∧ y.1 < x.1)
      then y :: insertLexDesc score x ys else x :: y :: ys

/-- Sort by descending score, ties broken by original position. -/
noncomputable def sortLexDesc (score : α → ℝ) : List (ℕ × α) → List (ℕ × α)
  | [] => []
  | x :: xs => insertLexDesc score x (sortLexDesc score xs)

end LexSortDefs

-- ─── `LongTermMemory` of `templates/basic-agent/src/memory.ts` ────────────

namespace Template

inductive MType
  | fact
  | preference
  | procedure
  | note
deriving DecidableEq, Repr

/-- The accumulator built by `LongTermMemory.embed` before normalization:
character trigrams contribute ±1, whitespace-delimited words of length ≥ 2
contribute ±2, at index `Math.abs(hash) % dimension`. -/
def embedRaw (d : ℕ) (text : String) : List ℤ :=
  let normalized := trimChars (lowerChars text.data)
  let v1 := (trigrams normalized).foldl
    (fun v t => applyFeature d 1 (jsHash t) v) (List.replicate d 0)
  (splitWs normalized).foldl
    (fun v w => if w.length < 2 then v else applyFeature d 2 (jsHash w) v) v1

/-- `LongTermMemory.embed`: the hashed accumulator, L2-normalized when its
magnitude is positive. -/
noncomputable def embed (d : ℕ) (text : String) : List ℝ :=
  l2normalize (embedRaw d text)

/-- `createHash('sha256').update(content).digest('hex').slice(0, 12)`. -/
def idOf (content : String) : String := (SHA256.sha256Hex content).take 12

/-- One row of the `memories` table. -/
structure Row where
  id : String
  content : String
  embedding : List ℝ
  type : MType
  source : String
  importance : ℚ
  createdAt : ℚ
  accessCount : ℕ
  lastAccessed : ℚ

/-- The `MemoryRecord` shape surfaced by `search`/`getAll` (no embedding,
no `last_accessed`). -/
structure MemoryRecord where
  id : String
  content : String
  type : MType
  source : String
  importance : ℚ
  createdAt : ℚ
  accessCount : ℕ
deriving DecidableEq

def Row.toRecord (r : Row) : MemoryRecord :=
  ⟨r.id, r.content, r.type, r.source, r.importance, r.createdAt, r.accessCount⟩

structure SearchResult where
  record : MemoryRecord
  similarity : ℝ

/-- `LongTermMemory.store`: deterministic id from the content hash,
`INSERT OR REPLACE` (drop the conflicting row, append a fresh one with
`access_count = 0` and fresh timestamps), returning the id. -/
noncomputable def store (d : ℕ) (st : List Row) (content : String) (ty : MType)
    (src : String) (importance : ℚ) (now : ℚ) : String × List Row :=
  let id := idOf content
  (id, st.filter (fun r => r.id ≠ id) ++
    [{ id := id, content := content, embedding := embed d content, type := ty,
       source := src, importance := importance, createdAt := now,
       accessCount := 0, lastAccessed := now }])

/-- Score one row against the query embedding:
`sim * 0.8 + row.importance * 0.2`. -/
noncomputable def scoreRow (qe : List ℝ) (r : Row) : SearchResult :=
  { record := r.toRecord,
    similarity := cosineSimilarity qe r.embedding * 0.8 + (r.importance : ℝ) * 0.2 }

/-- `LongTermMemory.search`: embed the query, score every row, filter by
`similarity >= minSimilarity`, sort descending (stable), truncate to `limit`,
then bump `access_count`/`last_accessed` of every returned row. -/
noncomputable def search (d : ℕ) (st : List Row) (query : String)
    (limit : ℕ) (minSimilarity : ℝ) (now : ℚ) : List SearchResult × List Row :=
  let qe := embed d query
  let results :=
    ((sortScoreDesc (·.similarity) ((st.map (scoreRow qe)).filter
      (fun r => minSimilarity ≤ r.similarity)))).take limit
  (results,
   st.map (fun r =>
     let hits := (results.filter (fun res => res.record.id = r.id)).length
     { r with accessCount := r.accessCount + hits,
              lastAccessed := if hits = 0 then r.lastAccessed else now }))

/-- `LongTermMemory.decay(maxAgeDays = 90)`:
`DELETE FROM memories WHERE last_accessed < ? AND importance < 0.7 AND
access_count < 3` with `cutoff = now - maxAgeDays * 24*60*60*1000`,
returning the number of deleted rows. -/
def decay (st : List Row) (maxAgeDays : ℚ) (now : ℚ) : ℕ × List Row :=
  let cutoff := now - maxAgeDays * (24 * 60 * 60 * 1000)
  let keep := st.filter
    (fun r => ¬(r.lastAccessed < cutoff ∧ r.importance < 0.7 ∧ r.accessCount < 3))
  (st.length - keep.length, keep)

/-- Claim C2's description of `search`, amended only in the tie-break:
score every stored record by `sim*0.8 + importance*0.2`, keep exactly those
with score ≥ `minSimilarity`, order by descending score with ties broken by
**original row order** (not by `last_accessed`), truncate to `limit`. -/
noncomputable def searchSpec (d : ℕ) (st : List Row) (query : String)
    (limit : ℕ) (minSimilarity : ℝ) : List SearchResult :=
  let qe := embed d query
  let scored := (st.map (scoreRow qe)).enum
  let kept := scored.filter (fun p => minSimilarity ≤ p.2.similarity)
  ((sortLexDesc (fun r : SearchResult => r.similarity) kept).map Prod.snd).take limit


end Template

-- ─── `ShortTermMemory` of `templates/basic-agent/src/memory.ts` ───────────

namespace ShortTerm

inductive Role
  | system
  | user
  | assistant
  | tool
deriving DecidableEq, Repr

/-- A tracked message.  `content` is the string content of the message
(`extractContent`), modelled as its list of UTF-16 code units; `tokenEstimate`
is the stored estimate. -/
structure TrackedMessage where
  role : Role
  content : List Char
  timestamp : ℕ
  tokenEstimate : ℕ
deriving DecidableEq, Repr

/-- `estimateTokens`: `Math.ceil(text.length / 4)`. -/
def estimateTokens (content : List Char) : ℕ := (content.length + 3) / 4

def totalTokens (msgs : List TrackedMessage) : ℕ :=
  (msgs.map (·.tokenEstimate)).sum

def truncMarker : List Char := "\n...[truncated for brevity]".data

/-- Pass 1 truncation of one oversized tool result:
`content.slice(0, 500) + marker`, estimate recomputed. -/
def truncateToolMsg (m : TrackedMessage) : TrackedMessage :=
  let content := m.content.take 500 ++ truncMarker
  { m with content := content, tokenEstimate := estimateTokens content }

/-- Pass 1 of `compactIfNeeded`: for `1 ≤ i < length - 6`, truncate tool
messages whose estimate exceeds 300. -/
def pass1 (msgs : List TrackedMessage) : List TrackedMessage :=
  msgs.mapIdx (fun i m =>
    if 1 ≤ i ∧ i + 6 < msgs.length ∧ m.role = Role.tool ∧ 300 < m.tokenEstimate
    then truncateToolMsg m else m)

/-- The synthetic system message of pass 2, with hard-coded estimate 20. -/
def omittedMarker (dropped : ℕ) (now : ℕ) : TrackedMessage :=
  { role := Role.system,
    content := ("[" ++ toString dropped ++
      " earlier messages omitted for context length]").data,
    timestamp := now, tokenEstimate := 20 }

/-- `ShortTermMemory.compactIfNeeded`: no-op under budget; otherwise pass 1,
then, if still over budget and more than `keep + keepEnd = 3 + 8` messages
remain, keep the first 3 and last 8 with a synthetic marker in between. -/
def compactIfNeeded (maxTokens : ℕ) (now : ℕ)
    (msgs : List TrackedMessage) : List TrackedMessage :=
  if totalTokens msgs ≤ maxTokens then msgs
  else
    let p1 := pass1 msgs
    if totalTokens p1 ≤ maxTokens then p1
    else if 3 + 8 < p1.length then
      p1.take 3 ++ [omittedMarker (p1.length - (3 + 8)) now] ++ p1.drop (p1.length - 8)
    else p1

/-- `ShortTermMemory.add`: push the tracked message, then compact. -/
def add (maxTokens : ℕ) (msgs : List TrackedMessage) (role : Role)
    (content : List Char) (now : ℕ) : List TrackedMessage :=
  compactIfNeeded maxTokens now (msgs ++
    [{ role := role, content := content, timestamp := now,
       tokenEstimate := estimateTokens content }])

end ShortTerm

-- ─── `guide/03-memory.md`: LongTermMemory, EpisodicMemory, AgentMemory ────

namespace Guide

inductive GType
  | fact
  | preference
  | procedure
  | entity
deriving DecidableEq, Repr

/-- The accumulator of the guide's `localEmbedding` (dimension defaults to
384): trigrams contribute ±1 and every whitespace-delimited word ±2 — the
guide has no minimum word length. -/
def embedRaw (d : ℕ) (text : String) : List ℤ :=
  let normalized := trimChars (lowerChars text.data)
  let v1 := (trigrams normalized).foldl
    (fun v t => applyFeature d 1 (jsHash t) v) (List.replicate d 0)
  (splitWs normalized).foldl (fun v w => applyFeature d 2 (jsHash w) v) v1

/-- `localEmbedding`: hashed accumulator, L2-normalized when nonzero.
(`getEmbedding` falls back to this whenever no API key is configured.) -/
noncomputable def localEmbedding (d : ℕ) (text : String) : List ℝ :=
  l2normalize (embedRaw d text)

/-- `createHash('sha256').update(content).digest('hex').slice(0, 16)`. -/
def idOf (content : String) : String := (SHA256.sha256Hex content).take 16

/-- One row of the guide's `memories` table (the `MemoryEntry` shape). -/
structure Row where
  id : String
  content : String
  embedding : List ℝ
  type : GType
  source : String
  createdAt : ℚ
  accessCount : ℕ
  lastAccessed : ℚ
  importance : ℚ

/-- The guide's `store`: `INSERT OR REPLACE` without the `access_count`
column, which therefore takes its schema default 0. -/
noncomputable def store (d : ℕ) (st : List Row) (content : String) (ty : GType)
    (src : String) (importance : ℚ) (now : ℚ) : String × List Row :=
  let id := idOf content
  (id, st.filter (fun r => r.id ≠ id) ++
    [{ id := id, content := content, embedding := localEmbedding d content,
       type := ty, source := src, createdAt := now, accessCount := 0,
       lastAccessed := now, importance := importance }])

structure SearchResult where
  entry : Row
  similarity : ℝ

/-- The guide's `search`: optional type filter, score
`sim*0.7 + importance*0.2 + recencyBoost*0.1` with the recency boost decaying
linearly over 30 days, filter by `minSimilarity` (default 0.3), stable sort
descending, truncate to `limit` (default 10), then bump access statistics of
the returned rows. -/
noncomputable def search (d : ℕ) (st : List Row) (query : String) (limit : ℕ)
    (typeFilter : Option GType) (minSimilarity : ℝ) (now : ℚ) :
    List SearchResult × List Row :=
  let qe := localEmbedding d query
  let rows := match typeFilter with
    | none => st
    | some t => st.filter (fun r => r.type = t)
  let results :=
    (sortScoreDesc (·.similarity) ((rows.map (fun r =>
        let sim := cosineSimilarity qe r.embedding
        let recencyBoost : ℝ :=
          max 0 (1 - ((now : ℝ) - (r.lastAccessed : ℝ)) / (30 * 24 * 60 * 60 * 1000))
        ({ entry := r,
           similarity := sim * 0.7 + (r.importance : ℝ) * 0.2 + recencyBoost * 0.1 }
          : SearchResult))).filter
      (fun r => minSimilarity ≤ r.similarity))).take limit
  (results,
   st.map (fun r =>
     let hits := (results.filter (fun res => res.entry.id = r.id)).length
     { r with accessCount := r.accessCount + hits,
              lastAccessed := if hits = 0 then r.lastAccessed else now }))

/-- One row of the `episodes` table.  `tools_used` and `topics` are kept in
their serialized TEXT form (that is what `LIKE` scans); `lessons` is modelled
as the parsed list it round-trips through JSON (`null`/`'[]'` both as `[]`).
The `messages` column is not read by any modelled operation. -/
structure Episode where
  id : String
  sessionId : String
  summary : String
  startedAt : ℚ
  endedAt : ℚ
  userGoal : Option String
  outcome : String
  toolsUsed : String
  topics : String
  lessons : List String
deriving DecidableEq

/-- SQLite `column LIKE '%q%'`: case-insensitive (ASCII) substring test. -/
def likeContains (hay q : String) : Bool :=
  decide (lowerChars q.data <:+: lowerChars hay.data)

/-- The `WHERE` clause of `searchEpisodes` (`NULL LIKE x` is not true). -/
def matchesQuery (q : String) (e : Episode) : Bool :=
  likeContains e.summary q || likeContains e.topics q ||
    (match e.userGoal with
     | none => false
     | some g => likeContains g q)

def insertEpDesc (x : Episode) : List Episode → List Episode
  | [] => [x]
  | y :: ys => if x.startedAt < y.startedAt then y :: insertEpDesc x ys
               else x :: y :: ys

/-- `ORDER BY started_at DESC` (stable in row order). -/
def sortEpDesc : List Episode → List Episode
  | [] => []
  | x :: xs => insertEpDesc x (sortEpDesc xs)

/-- `EpisodicMemory.searchEpisodes`: keyword filter over
summary/topics/user_goal, most recent first, truncated to `limit`. -/
def searchEpisodes (eps : List Episode) (q : String) (limit : ℕ) : List Episode :=
  (sortEpDesc (eps.filter (matchesQuery q))).take limit

def dedupAux (seen : List String) : List String → List String
  | [] => []
  | x :: xs => if x ∈ seen then dedupAux seen xs else x :: dedupAux (x :: seen) xs

/-- `EpisodicMemory.getLessons`: concatenation of all episodes' lessons,
deduplicated preserving first occurrence (`[...new Set(allLessons)]`). -/
def getLessons (eps : List Episode) : List String :=
  dedupAux [] ((eps.map (·.lessons)).flatten)

/-- A context message as far as `AgentMemory.buildContext` is concerned
(role and content; tool ids, timestamps and metadata are untouched by it). -/
structure GMessage where
  role : ShortTerm.Role
  content : String
deriving DecidableEq

def typeStr : GType → String
  | GType.fact => "fact"
  | GType.preference => "preference"
  | GType.procedure => "procedure"
  | GType.entity => "entity"

/-- `AgentMemory.buildContext(userMessage)`: search long-term memory
(`limit 5`, default threshold 0.3), search episodes (limit 3), collect all
lessons; if the assembled injection text is nonempty, splice one system turn
at index 1, otherwise return the short-term messages unchanged.
`fmtDate` abstracts `new Date(...).toLocaleDateString()`. -/
noncomputable def buildContext (d : ℕ) (msgs : List GMessage) (lt : List Row)
    (eps : List Episode) (userMessage : String) (now : ℚ)
    (fmtDate : ℚ → String) : List GMessage :=
  let relevantMemories := (search d lt userMessage 5 none 0.3 now).1
  let relevantEpisodes := searchEpisodes eps userMessage 3
  let lessons := getLessons eps
  let inj1 :=
    if relevantMemories.length > 0 then
      "\n\n## Relevant Information from Memory\n" ++
        String.join (relevantMemories.map (fun m =>
          "- [" ++ typeStr m.entry.type ++ "] " ++ m.entry.content ++ "\n"))
    else ""
  let inj2 :=
    if relevantEpisodes.length > 0 then
      "\n\n## Relevant Past Sessions\n" ++
        String.join (relevantEpisodes.map (fun e =>
          "- [" ++ fmtDate e.startedAt ++ "] " ++ e.summary ++
            " (outcome: " ++ e.outcome ++ ")\n"))
    else ""
  let inj3 :=
    if lessons.length > 0 then
      "\n\n## Lessons Learned\n" ++
        String.join ((lessons.drop (lessons.length - 10)).map
          (fun l => "- " ++ l ++ "\n"))
    else ""
  let contextInjection := inj1 ++ inj2 ++ inj3
  if contextInjection = "" then msgs
  else
    msgs.take 1 ++
      [{ role := ShortTerm.Role.system,
         content := "Context from your memory:" ++ contextInjection }] ++
      msgs.drop 1

/-- A candidate memory proposed by the extractor during `processResponse`. -/
structure Candidate where
  content : String
  type : GType
  importance : ℚ

/-- `AgentMemory.processResponse`: for each extracted candidate, call
`store(content, type, 'conversation-<date>', importance)` — unconditionally,
with no dedup search. -/
noncomputable def processResponse (d : ℕ) (st : List Row)
    (cands : List Candidate) (today : String) (now : ℚ) : List Row :=
  cands.foldl
    (fun s c => (store d s c.content c.type ("conversation-" ++ today) c.importance now).2)
    st

end Guide

-- ─── Concrete instances used by the claim theorems ───────────────────────

/-- A row as produced by `store("ab", fact, "s1", 0.9)` at time 0. -/
noncomputable def c4Row : Template.Row :=
  { id := Template.idOf "ab", content := "ab",
    embedding := Template.embed 256 "ab", type := Template.MType.fact,
    source := "s1", importance := 0.9, createdAt := 0,
    accessCount := 0, lastAccessed := 0 }

/-- The buffer state of the C7 counterexample: an 11-token system prompt
followed by 11 empty user messages, under a 10-token budget. -/
def c7Msgs : List ShortTerm.TrackedMessage :=
  { role := ShortTerm.Role.system, content := List.replicate 44 'x',
    timestamp := 0, tokenEstimate := 11 } ::
  List.replicate 11
    { role := ShortTerm.Role.user, content := [], timestamp := 0,
      tokenEstimate := 0 }

/-- The row inserted by `store("ab", note, "", importance = 10)` at time 0. -/
noncomputable def c10Row : Template.Row :=
  Template.Row.mk (Template.idOf "ab") "ab" (Template.embed 256 "ab")
    Template.MType.note "" 10 0 0 0

/-- An episode whose summary/topics/goal do not match the query `"zzz"`, but
which carries one lesson. -/
def c8Episode : Guide.Episode :=
  { id := "ep1", sessionId := "s1", summary := "alpha", startedAt := 0,
    endedAt := 0, userGoal := none, outcome := "success", toolsUsed := "[]",
    topics := "[]", lessons := ["x"] }

/-- The row inserted by the guide's `store("ab", fact, "s1", 0.9)` at time
1000. -/
noncomputable def c9Row : Guide.Row :=
  Guide.Row.mk (Guide.idOf "ab") "ab" (Guide.localEmbedding 384 "ab")
    Guide.GType.fact "s1" 1000 0 1000 0.9

noncomputable def c2Row1 : Template.Row :=
  Template.Row.mk (Template.idOf "ab") "ab" (Template.embed 256 "ab")
    Template.MType.note "" 0.5 100 0 100

noncomputable def c2Row2 : Template.Row :=
  Template.Row.mk (Template.idOf "ab ") "ab " (Template.embed 256 "ab ")
    Template.MType.note "" 0.5 200 0 200

-- ─── Lemmas on the shared vector layer ────────────────────────────────────

theorem sumSq_nonneg (v : List ℤ) : 0 ≤ sumSq v := by
  refine List.sum_nonneg ?_
  intro x hx
  obtain ⟨y, _, rfl⟩ := List.mem_map.mp hx
  exact mul_self_nonneg y

theorem sumSq_cons (a : ℤ) (l : List ℤ) : sumSq (a :: l) = a * a + sumSq l := by
  simp [sumSq]

theorem sumSq_eq_zero_iff (v : List ℤ) : sumSq v = 0 ↔ ∀ x ∈ v, x = 0 := by
  induction v with
  | nil => simp [sumSq]
  | cons a l ih =>
    constructor
    · intro h x hx
      have ha : 0 ≤ a * a := mul_self_nonneg a
      have hl : 0 ≤ sumSq l := sumSq_nonneg l
      rw [sumSq_cons] at h
      rcases List.mem_cons.mp hx with rfl | hx
      · exact mul_self_eq_zero.mp (by omega)
      · exact ih.mp (by omega) x hx
    · intro h
      have ha : a = 0 := h a (by simp)
      have hl : sumSq l = 0 := ih.mpr (fun x hx => h x (List.mem_cons_of_mem _ hx))
      rw [sumSq_cons, ha, hl]
      ring

theorem sumSqR_cons (a : ℝ) (l : List ℝ) : sumSqR (a :: l) = a * a + sumSqR l := by
  simp [sumSqR]

theorem sumSqR_nonneg (v : List ℝ) : 0 ≤ sumSqR v := by
  refine List.sum_nonneg ?_
  intro x hx
  obtain ⟨y, _, rfl⟩ := List.mem_map.mp hx
  exact mul_self_nonneg y

theorem sumSqR_cast (v : List ℤ) :
    sumSqR (v.map (fun x : ℤ => (x : ℝ))) = ((sumSq v : ℤ) : ℝ) := by
  induction v with
  | nil => simp [sumSqR, sumSq]
  | cons a l ih =>
    rw [List.map_cons, sumSqR_cons, ih, sumSq_cons]
    push_cast
    ring

theorem sumSqR_map_div (v : List ℤ) (c : ℝ) :
    sumSqR (v.map (fun x : ℤ => (x : ℝ) / c)) = ((sumSq v : ℤ) : ℝ) / (c * c) := by
  induction v with
  | nil => simp [sumSqR, sumSq]
  | cons a l ih =>
    rw [List.map_cons, sumSqR_cons, ih, sumSq_cons]
    push_cast
    rw [div_mul_div_comm, div_add_div_same]

theorem dotR_self (v : List ℝ) : dotR v v = sumSqR v := by
  induction v with
  | nil => simp [dotR, sumSqR]
  | cons a l ih =>
    simp only [dotR, List.zip_cons_cons, List.map_cons, List.sum_cons] at *
    rw [ih]
    simp [sumSqR]

theorem dotR_zero_left (a b : List ℝ) (h : ∀ x ∈ a, x = 0) : dotR a b = 0 := by
  induction a generalizing b with
  | nil => simp [dotR]
  | cons x xs ih =>
    cases b with
    | nil => simp [dotR]
    | cons y ys =>
      have hx : x = 0 := h x (by simp)
      simp only [dotR, List.zip_cons_cons, List.map_cons, List.sum_cons]
      rw [hx]
      have := ih ys (fun z hz => h z (List.mem_cons_of_mem _ hz))
      simp only [dotR] at this
      rw [this]
      ring

theorem dotR_zero_right (a b : List ℝ) (h : ∀ x ∈ b, x = 0) : dotR a b = 0 := by
  induction a generalizing b with
  | nil => simp [dotR]
  | cons x xs ih =>
    cases b with
    | nil => simp [dotR]
    | cons y ys =>
      have hy : y = 0 := h y (by simp)
      simp only [dotR, List.zip_cons_cons, List.map_cons, List.sum_cons]
      rw [hy]
      have := ih ys (fun z hz => h z (List.mem_cons_of_mem _ hz))
      simp only [dotR] at this
      rw [this]
      ring

/-- The normalized accumulator has squared norm 1 when the accumulator is
nonzero. -/
theorem sumSqR_l2normalize_of_ne (v : List ℤ) (h : sumSq v ≠ 0) :
    sumSqR (l2normalize v) = 1 := by
  have hpos : 0 < sumSq v := lt_of_le_of_ne (sumSq_nonneg v) (Ne.symm h)
  have hposR : (0 : ℝ) < ((sumSq v : ℤ) : ℝ) := by exact_mod_cast hpos
  have hmag : 0 < Real.sqrt ((sumSq v : ℤ) : ℝ) := Real.sqrt_pos.mpr hposR
  rw [l2normalize]
  simp only [if_pos hmag]
  rw [sumSqR_map_div, Real.mul_self_sqrt hposR.le]
  exact div_self hposR.ne'

/-- The normalized accumulator is the zero vector when the accumulator is
zero (normalization is skipped). -/
theorem l2normalize_of_zero (v : List ℤ) (h : sumSq v = 0) :
    ∀ x ∈ l2normalize v, x = 0 := by
  have hmag : ¬(0 < Real.sqrt ((sumSq v : ℤ) : ℝ)) := by
    rw [h]
    simp
  rw [l2normalize]
  simp only [if_neg hmag]
  intro x hx
  obtain ⟨y, hy, rfl⟩ := List.mem_map.mp hx
  have := (sumSq_eq_zero_iff v).mp h y hy
  exact_mod_cast this

theorem sumSqR_of_all_zero (v : List ℝ) (h : ∀ x ∈ v, x = 0) : sumSqR v = 0 := by
  induction v with
  | nil => simp [sumSqR]
  | cons a l ih =>
    rw [sumSqR_cons, h a (by simp), ih (fun x hx => h x (List.mem_cons_of_mem _ hx))]
    ring

theorem sumSqR_l2normalize_of_zero (v : List ℤ) (h : sumSq v = 0) :
    sumSqR (l2normalize v) = 0 :=
  sumSqR_of_all_zero _ (l2normalize_of_zero v h)

/-- Self-similarity of a nonzero normalized vector is exactly 1. -/
theorem cos_self_l2normalize (v : List ℤ) (h : sumSq v ≠ 0) :
    cosineSimilarity (l2normalize v) (l2normalize v) = 1 := by
  have h1 : sumSqR (l2normalize v) = 1 := sumSqR_l2normalize_of_ne v h
  rw [cosineSimilarity]
  simp only [h1, Real.sqrt_one]
  rw [if_neg (by norm_num), dotR_self, h1]
  norm_num

/-- Self-similarity of the zero vector is 0 (the `magA && magB` guard). -/
theorem cos_self_l2normalize_zero (v : List ℤ) (h : sumSq v = 0) :
    cosineSimilarity (l2normalize v) (l2normalize v) = 0 := by
  have h0 : sumSqR (l2normalize v) = 0 := sumSqR_l2normalize_of_zero v h
  rw [cosineSimilarity]
  simp [h0]

/-- Cosine similarity between two outputs of the embedding reduces to their
dot product: each is a unit vector or the zero vector. -/
theorem cos_l2normalize_eq_dot (v w : List ℤ) :
    cosineSimilarity (l2normalize v) (l2normalize w) =
      dotR (l2normalize v) (l2normalize w) := by
  by_cases hv : sumSq v = 0
  · have hd : dotR (l2normalize v) (l2normalize w) = 0 :=
      dotR_zero_left _ _ (l2normalize_of_zero v hv)
    rw [cosineSimilarity]
    simp [sumSqR_l2normalize_of_zero v hv, hd]
  · by_cases hw : sumSq w = 0
    · have hd : dotR (l2normalize v) (l2normalize w) = 0 :=
        dotR_zero_right _ _ (l2normalize_of_zero w hw)
      rw [cosineSimilarity]
      simp [sumSqR_l2normalize_of_zero w hw, hd]
    · rw [cosineSimilarity]
      simp only [sumSqR_l2normalize_of_ne v hv, sumSqR_l2normalize_of_ne w hw,
        Real.sqrt_one]
      rw [if_neg (by norm_num)]
      norm_num

/-- The Euclidean norm of any normalized accumulator is 1 or 0. -/
theorem l2norm_l2normalize (v : List ℤ) :
    l2norm (l2normalize v) = 1 ∨ l2norm (l2normalize v) = 0 := by
  by_cases hv : sumSq v = 0
  · right
    rw [l2norm, sumSqR_l2normalize_of_zero v hv, Real.sqrt_zero]
  · left
    rw [l2norm, sumSqR_l2normalize_of_ne v hv, Real.sqrt_one]

-- ─── Claim C5: self-similarity of the default embedding ───────────────────

/-- C5 counterexample: `"a"` is non-empty, yet
`cosineSimilarity(embed("a"), embed("a")) = 0`, not 1: the single word `"a"`
is skipped (`word.length < 2`), there are no trigrams, so the accumulator is
the zero vector, normalization is skipped, and the `magA && magB` guard of
`cosineSimilarity` returns 0. -/
theorem C5_counterexample :
    "a" ≠ "" ∧
    cosineSimilarity (Template.embed 256 "a") (Template.embed 256 "a") = 0 ∧
    (0 : ℝ) ≠ 1 := by
  refine ⟨by decide, ?_, by norm_num⟩
  have h : sumSq (Template.embedRaw 256 "a") = 0 := by decide
  exact cos_self_l2normalize_zero _ h

/-- C5 (amended): for every non-empty input string whose hashed accumulator
is nonzero (in particular any input containing a word of length ≥ 2 whose
features do not cancel), the self-similarity of the default embedding is
exactly 1 in exact arithmetic (hence 1.0 within floating-point epsilon). -/
theorem C5_embed_self_similarity (x : String) (hx : x ≠ "")
    (hacc : sumSq (Template.embedRaw 256 x) ≠ 0) :
    cosineSimilarity (Template.embed 256 x) (Template.embed 256 x) = 1 :=
  cos_self_l2normalize _ hacc

theorem C5_embed_self_similarity_witness :
    "ab" ≠ "" ∧
    cosineSimilarity (Template.embed 256 "ab") (Template.embed 256 "ab") = 1 :=
  ⟨by decide, C5_embed_self_similarity "ab" (by decide) (by decide)⟩

-- ─── Claim C6: embeddings L2-normalized ───────────────────────────────────

/-- C6 counterexample: the embedding of the (non-empty) text `"a"` has
Euclidean norm 0, not 1 — the zero accumulator skips normalization, so not
every computed embedding is a unit vector. -/
theorem C6_counterexample :
    l2norm (Template.embed 256 "a") = 0 ∧ (0 : ℝ) ≠ 1 := by
  constructor
  · have h : sumSq (Template.embedRaw 256 "a") = 0 := by decide
    rw [Template.embed]
    rw [l2norm, sumSqR_l2normalize_of_zero _ h, Real.sqrt_zero]
  · norm_num

/-- C6 (amended): every embedding the default function produces, in any
dimension, has Euclidean norm 1 **or** 0 (0 exactly when the hashed
accumulator vanishes, e.g. for `"a"`), and cosine similarity between any two
produced embeddings still coincides with their dot product. -/
theorem C6_embed_norm (d : ℕ) (x y : String) :
    (l2norm (Template.embed d x) = 1 ∨ l2norm (Template.embed d x) = 0) ∧
    cosineSimilarity (Template.embed d x) (Template.embed d y) =
      dotR (Template.embed d x) (Template.embed d y) :=
  ⟨l2norm_l2normalize _, cos_l2normalize_eq_dot _ _⟩

-- ─── Claim C3: empty content handling in `store` ──────────────────────────

/-- C3 counterexample: `store("")` on an empty store does **not** fail — it
inserts exactly one record, whose content is the empty string.  `memory.ts`
contains no input validation at all. -/
theorem C3_counterexample :
    ((Template.store 256 [] "" Template.MType.note "" 0.5 0).2).length = 1 ∧
    ∀ r ∈ (Template.store 256 [] "" Template.MType.note "" 0.5 0).2,
      r.content = "" := by
  constructor
  · rfl
  · intro r hr
    rw [List.mem_singleton.mp hr]

/-- C3 (amended): `store` performs no empty-content validation: called with
`content = ""` from any state it succeeds like any other call, returning the
hash id of the empty string and inserting a record with empty content and
`access_count = 0`. -/
theorem C3_store_empty_succeeds (st : List Template.Row) (ty : Template.MType)
    (src : String) (imp now : ℚ) :
    (Template.store 256 st "" ty src imp now).1 = Template.idOf "" ∧
    ∃ r ∈ (Template.store 256 st "" ty src imp now).2,
      r.content = "" ∧ r.accessCount = 0 := by
  refine ⟨rfl, ?_⟩
  exact ⟨_, List.mem_append_right _ (List.mem_singleton_self _), rfl, rfl⟩

-- ─── Claim C4: decay parameters ───────────────────────────────────────────

/-- C4 counterexample: `decay` has no `importance_floor`/`access_floor`
parameters; with `max_age = 0` a record of importance `0.9 < 1.0` whose age
exceeds the cutoff (and which was never accessed) is nevertheless **kept**,
because the hard-coded floor is `importance < 0.7`.  The claimed call
`decay(0, 1.0, ∞)` therefore does not remove every record with
importance < 1.0. -/
theorem C4_counterexample :
    c4Row.importance < 1 ∧
    c4Row.lastAccessed < 1000 - 0 * 86400000 ∧
    c4Row.accessCount < 3 ∧
    Template.decay [c4Row] 0 1000 = (0, [c4Row]) := by
  refine ⟨by norm_num [c4Row], by norm_num [c4Row], by norm_num [c4Row], ?_⟩
  rw [Template.decay]
  norm_num [c4Row, List.filter]

/-- C4 (amended): `decay` takes only `maxAgeDays`; it deletes exactly the
records satisfying `(now - last_accessed) > maxAgeDays` in milliseconds AND
`importance < 0.7` AND `access_count < 3` — the two floors are hard-coded,
not parameters — and returns the count removed. -/
theorem C4_decay_fixed_floors (st : List Template.Row) (maxAgeDays now : ℚ) :
    (∀ r, r ∈ (Template.decay st maxAgeDays now).2 ↔
      r ∈ st ∧ ¬(maxAgeDays * 86400000 < now - r.lastAccessed ∧
                 r.importance < 0.7 ∧ r.accessCount < 3)) ∧
    (Template.decay st maxAgeDays now).1 +
      ((Template.decay st maxAgeDays now).2).length = st.length := by
  constructor
  · intro r
    rw [Template.decay]
    simp only [List.mem_filter, decide_eq_true_eq]
    constructor
    · rintro ⟨hmem, hcond⟩
      refine ⟨hmem, fun hc => hcond ⟨by linarith [hc.1], hc.2.1, hc.2.2⟩⟩
    · rintro ⟨hmem, hcond⟩
      refine ⟨hmem, fun hc => hcond ⟨by linarith [hc.1], hc.2.1, hc.2.2⟩⟩
  · rw [Template.decay]
    dsimp only
    have := List.length_filter_le
      (fun r : Template.Row =>
        decide ¬(r.lastAccessed < now - maxAgeDays * (24 * 60 * 60 * 1000) ∧
                 r.importance < 0.7 ∧ r.accessCount < 3)) st
    omega

-- ─── Claim C7: compaction and the token estimate ──────────────────────────

theorem totalTokens_append (l₁ l₂ : List ShortTerm.TrackedMessage) :
    ShortTerm.totalTokens (l₁ ++ l₂) =
      ShortTerm.totalTokens l₁ + ShortTerm.totalTokens l₂ := by
  simp [ShortTerm.totalTokens]

theorem totalTokens_drop_le (k : ℕ) (l : List ShortTerm.TrackedMessage) :
    ShortTerm.totalTokens (l.drop k) ≤ ShortTerm.totalTokens l := by
  conv_rhs => rw [← List.take_append_drop k l]
  rw [totalTokens_append]
  omega

/-- An oversized tool result (estimate > 300) is always shrunk by
truncation: the truncated content has at most 527 characters, so at most
132 estimated tokens. -/
theorem truncateToolMsg_le (m : ShortTerm.TrackedMessage)
    (h : 300 < m.tokenEstimate) :
    (ShortTerm.truncateToolMsg m).tokenEstimate ≤ m.tokenEstimate := by
  have hlen : (m.content.take 500 ++ ShortTerm.truncMarker).length ≤ 527 := by
    rw [List.length_append]
    have h1 := List.length_take 500 m.content
    have h2 : ShortTerm.truncMarker.length = 27 := by decide
    omega
  have : (ShortTerm.truncateToolMsg m).tokenEstimate =
      ((m.content.take 500 ++ ShortTerm.truncMarker).length + 3) / 4 := rfl
  rw [this]
  omega

/-- Pass 1 never increases the total estimate. -/
theorem totalTokens_pass1_le (msgs : List ShortTerm.TrackedMessage) :
    ShortTerm.totalTokens (ShortTerm.pass1 msgs) ≤ ShortTerm.totalTokens msgs := by
  rw [ShortTerm.pass1, ShortTerm.totalTokens, ShortTerm.totalTokens,
    List.mapIdx_eq_enum_map, List.map_map]
  conv_rhs => rw [← List.enum_map_snd msgs, List.map_map]
  apply List.sum_le_sum
  rintro ⟨i, m⟩ _
  by_cases hc : 1 ≤ i ∧ i + 6 < msgs.length ∧ m.role = ShortTerm.Role.tool ∧
      300 < m.tokenEstimate
  · simp only [Function.comp_apply, Function.uncurry_apply_pair, if_pos hc]
    exact truncateToolMsg_le m hc.2.2.2
  · simp only [Function.comp_apply, Function.uncurry_apply_pair, if_neg hc]
    exact le_refl _

/-- C7 (amended): one run of `compactIfNeeded` can raise the total token
estimate by at most 20 — the hard-coded estimate of the synthetic
`[N earlier messages omitted]` marker of pass 2; pass 1 alone never
increases the estimate. -/
theorem C7_compaction_token_bound (maxTokens now : ℕ)
    (msgs : List ShortTerm.TrackedMessage) :
    ShortTerm.totalTokens (ShortTerm.compactIfNeeded maxTokens now msgs) ≤
      ShortTerm.totalTokens msgs + 20 ∧
    ShortTerm.totalTokens (ShortTerm.pass1 msgs) ≤ ShortTerm.totalTokens msgs := by
  have hp1 := totalTokens_pass1_le msgs
  refine ⟨?_, hp1⟩
  simp only [ShortTerm.compactIfNeeded]
  split_ifs with h1 h2 h3
  · omega
  · omega
  · rw [totalTokens_append, totalTokens_append]
    have hmarker : ShortTerm.totalTokens
        [ShortTerm.omittedMarker ((ShortTerm.pass1 msgs).length - (3 + 8)) now] = 20 := by
      simp [ShortTerm.totalTokens, ShortTerm.omittedMarker]
    have hsplit : ShortTerm.totalTokens ((ShortTerm.pass1 msgs).take 3) +
        ShortTerm.totalTokens ((ShortTerm.pass1 msgs).drop 3) =
        ShortTerm.totalTokens (ShortTerm.pass1 msgs) := by
      rw [← totalTokens_append, List.take_append_drop]
    have hdrop : ShortTerm.totalTokens
        ((ShortTerm.pass1 msgs).drop ((ShortTerm.pass1 msgs).length - 8)) ≤
        ShortTerm.totalTokens ((ShortTerm.pass1 msgs).drop 3) := by
      have heq : (ShortTerm.pass1 msgs).drop ((ShortTerm.pass1 msgs).length - 8) =
          ((ShortTerm.pass1 msgs).drop 3).drop ((ShortTerm.pass1 msgs).length - 11) := by
        rw [List.drop_drop]
        congr 1
        omega
      rw [heq]
      exact totalTokens_drop_le _ _
    omega
  · omega

/-- C7 counterexample: this buffer is over budget (11 > 10), compaction
triggers, and the total estimate **rises** from 11 to 31: pass 2 drops one
empty message (0 tokens) and inserts the synthetic marker (20 tokens). -/
theorem C7_counterexample :
    ¬ ShortTerm.totalTokens c7Msgs ≤ 10 ∧
    ShortTerm.totalTokens c7Msgs = 11 ∧
    ShortTerm.totalTokens (ShortTerm.compactIfNeeded 10 999 c7Msgs) = 31 := by
  exact ⟨by decide, by decide, by decide⟩

-- ─── Claim C1: storing identical content twice ────────────────────────────

/-- `store` maintains the invariant that every row's id is the hash of its
content (true of any store populated through `store`). -/
theorem store_preserves_inv (d : ℕ) (st : List Template.Row) (c : String)
    (ty : Template.MType) (src : String) (imp now : ℚ)
    (hinv : ∀ r ∈ st, r.id = Template.idOf r.content) :
    ∀ r ∈ (Template.store d st c ty src imp now).2,
      r.id = Template.idOf r.content := by
  intro r hr
  simp only [Template.store, List.mem_append, List.mem_filter] at hr
  rcases hr with ⟨hmem, _⟩ | hr
  · exact hinv r hmem
  · rw [List.mem_singleton] at hr
    subst hr
    dsimp only

/-- After a `store(c, ...)`, the rows with content `c` are exactly the one
fresh row just inserted. -/
theorem store_filter_content (d : ℕ) (st : List Template.Row) (c : String)
    (ty : Template.MType) (src : String) (imp now : ℚ)
    (hinv : ∀ r ∈ st, r.id = Template.idOf r.content) :
    ((Template.store d st c ty src imp now).2).filter (fun r => r.content = c) =
      [{ id := Template.idOf c, content := c, embedding := Template.embed d c,
         type := ty, source := src, importance := imp, createdAt := now,
         accessCount := 0, lastAccessed := now }] := by
  simp only [Template.store, List.filter_append]
  have h1 : (st.filter (fun r => r.id ≠ Template.idOf c)).filter
      (fun r => r.content = c) = [] := by
    rw [List.filter_eq_nil_iff]
    intro r hr
    rw [List.mem_filter, decide_eq_true_eq] at hr
    simp only [decide_eq_true_eq]
    intro hC
    exact hr.2 (hC ▸ hinv r hr.1)
  rw [h1]
  simp

/-- C1: storing the same non-empty content twice in sequence (with arbitrary
metadata each time) returns the same id both times, and afterwards the store
holds exactly one record with that content, whose `access_count` is 0 (the
second store fully replaces the first record and resets its statistics). -/
theorem C1_store_twice (c : String) (hc : c ≠ "") (st : List Template.Row)
    (hinv : ∀ r ∈ st, r.id = Template.idOf r.content) (ty₁ ty₂ : Template.MType)
    (src₁ src₂ : String) (imp₁ imp₂ t₁ t₂ : ℚ) :
    (Template.store 256 st c ty₁ src₁ imp₁ t₁).1 =
      (Template.store 256 (Template.store 256 st c ty₁ src₁ imp₁ t₁).2
        c ty₂ src₂ imp₂ t₂).1 ∧
    (((Template.store 256 (Template.store 256 st c ty₁ src₁ imp₁ t₁).2
        c ty₂ src₂ imp₂ t₂).2).filter (fun r => r.content = c)).length = 1 ∧
    ∀ r ∈ (Template.store 256 (Template.store 256 st c ty₁ src₁ imp₁ t₁).2
        c ty₂ src₂ imp₂ t₂).2, r.content = c → r.accessCount = 0 := by
  have hinv1 := store_preserves_inv 256 st c ty₁ src₁ imp₁ t₁ hinv
  have hfc := store_filter_content 256 (Template.store 256 st c ty₁ src₁ imp₁ t₁).2
    c ty₂ src₂ imp₂ t₂ hinv1
  refine ⟨rfl, ?_, ?_⟩
  · rw [hfc]
    rfl
  · intro r hr hcontent
    have hmem : r ∈ ((Template.store 256 (Template.store 256 st c ty₁ src₁ imp₁ t₁).2
        c ty₂ src₂ imp₂ t₂).2).filter (fun x => x.content = c) := by
      rw [List.mem_filter]
      exact ⟨hr, by simp [hcontent]⟩
    rw [hfc, List.mem_singleton] at hmem
    subst hmem
    rfl

theorem C1_store_twice_witness :
    "ab" ≠ "" ∧
    ((Template.store 256 [] "ab" Template.MType.preference "s1" 0.9 5).1 =
      (Template.store 256 (Template.store 256 [] "ab" Template.MType.preference "s1" 0.9 5).2
        "ab" Template.MType.preference "s1" 0.9 6).1 ∧
    (((Template.store 256 (Template.store 256 [] "ab" Template.MType.preference "s1" 0.9 5).2
        "ab" Template.MType.preference "s1" 0.9 6).2).filter
        (fun r => r.content = "ab")).length = 1 ∧
    ∀ r ∈ (Template.store 256 (Template.store 256 [] "ab" Template.MType.preference "s1" 0.9 5).2
        "ab" Template.MType.preference "s1" 0.9 6).2,
      r.content = "ab" → r.accessCount = 0) :=
  ⟨by decide,
   C1_store_twice "ab" (by decide) [] (by simp) Template.MType.preference
     Template.MType.preference "s1" "s1" 0.9 0.9 5 6⟩

-- ─── Claim C10: importance is not clamped ─────────────────────────────────

theorem c10_store_eq :
    (Template.store 256 [] "ab" Template.MType.note "" 10 0).2 = [c10Row] := rfl

theorem c10_search_eq :
    (Template.search 256 [c10Row] "ab" 5 0.1 0).1 = [⟨c10Row.toRecord, 2.8⟩] := by
  have hab : cosineSimilarity (Template.embed 256 "ab") (Template.embed 256 "ab") = 1 :=
    cos_self_l2normalize _ (by decide)
  simp only [Template.search, Template.scoreRow, List.map_cons, List.map_nil, c10Row]
  rw [hab]
  norm_num [sortScoreDesc, insertScoreDesc]

/-- C10: `store` persists the `importance` argument exactly as given — no
range validation or clamping, also outside `[0, 1]` — and the unclamped
value enters the blended search score `sim*0.8 + importance*0.2`: storing
`"ab"` with importance 10 and then searching `"ab"` returns blended score
`1*0.8 + 10*0.2 = 2.8 > 1`. -/
theorem C10_no_importance_clamp :
    (∀ (st : List Template.Row) (c : String) (ty : Template.MType)
       (src : String) (imp now : ℚ),
       ∃ r ∈ (Template.store 256 st c ty src imp now).2,
         r.content = c ∧ r.importance = imp) ∧
    (∃ res ∈ (Template.search 256
        (Template.store 256 [] "ab" Template.MType.note "" 10 0).2
        "ab" 5 0.1 0).1, 1 < res.similarity) := by
  constructor
  · intro st c ty src imp now
    exact ⟨_, List.mem_append_right _ (List.mem_singleton_self _), rfl, rfl⟩
  · rw [c10_store_eq, c10_search_eq]
    exact ⟨⟨c10Row.toRecord, 2.8⟩, List.mem_singleton_self _, by norm_num⟩

-- ─── Claim C8: buildContext no-op path ────────────────────────────────────

/-- C8 (amended): `buildContext` returns the buffer snapshot unchanged when
the Semantic Store search, the Episodic Log search **and** the accumulated
lessons list are all empty.  (The lessons section is built regardless of the
two searches, so empty searches alone do not give a no-op.) -/
theorem C8_buildContext_noop (d : ℕ) (msgs : List Guide.GMessage)
    (lt : List Guide.Row) (eps : List Guide.Episode) (um : String) (now : ℚ)
    (fmtDate : ℚ → String)
    (h1 : (Guide.search d lt um 5 none 0.3 now).1 = [])
    (h2 : Guide.searchEpisodes eps um 3 = [])
    (h3 : Guide.getLessons eps = []) :
    Guide.buildContext d msgs lt eps um now fmtDate = msgs := by
  simp only [Guide.buildContext]
  rw [h1, h2, h3]
  simp

theorem C8_buildContext_noop_witness :
    Guide.buildContext 384 [⟨ShortTerm.Role.system, "s"⟩] [] [] "q" 0
      (fun _ => "") = [⟨ShortTerm.Role.system, "s"⟩] :=
  C8_buildContext_noop 384 [⟨ShortTerm.Role.system, "s"⟩] [] [] "q" 0
    (fun _ => "") rfl rfl rfl

/-- C8 counterexample: for the user message `"zzz"` both the Semantic Store
search and the Episodic Log search return no results, yet `buildContext`
does **not** return the buffer unchanged: the stored lesson produces a
nonempty injection, so an additional system turn is spliced in (the buffer
grows from 1 to 2 turns). -/
theorem C8_counterexample :
    (Guide.search 384 [] "zzz" 5 none 0.3 0).1 = [] ∧
    Guide.searchEpisodes [c8Episode] "zzz" 3 = [] ∧
    (Guide.buildContext 384 [⟨ShortTerm.Role.system, "s"⟩] [] [c8Episode] "zzz" 0
      (fun _ => "")).length = 2 ∧
    Guide.buildContext 384 [⟨ShortTerm.Role.system, "s"⟩] [] [c8Episode] "zzz" 0
      (fun _ => "") ≠ [⟨ShortTerm.Role.system, "s"⟩] := by
  exact ⟨rfl, by decide, by decide, by decide⟩

-- ─── Claim C9: dedup in processExchange ───────────────────────────────────

theorem c9_store_eq :
    (Guide.store 384 [] "ab" Guide.GType.fact "s1" 0.9 1000).2 = [c9Row] := rfl

/-- The dedup search the claim describes (limit 1, threshold 0.85) **does**
hit this store: identical content gives similarity 1, so the blended score
is `1*0.7 + 0.9*0.2 + 1*0.1 = 0.98 ≥ 0.85`. -/
theorem c9_search_eq :
    (Guide.search 384 [c9Row] "ab" 1 none 0.85 1000).1 = [⟨c9Row, 0.98⟩] := by
  have hab : cosineSimilarity (Guide.localEmbedding 384 "ab")
      (Guide.localEmbedding 384 "ab") = 1 :=
    cos_self_l2normalize _ (by decide)
  simp only [Guide.search, List.map_cons, List.map_nil, c9Row]
  rw [hab]
  norm_num [sortScoreDesc, insertScoreDesc]

theorem c9_process_eq :
    Guide.processResponse 384 [c9Row] [⟨"ab", Guide.GType.fact, 0.3⟩] "d2" 2000 =
      [Guide.Row.mk (Guide.idOf "ab") "ab" (Guide.localEmbedding 384 "ab")
        Guide.GType.fact ("conversation-" ++ "d2") 2000 0 2000 0.3] := by
  simp only [Guide.processResponse, List.foldl, Guide.store, c9Row]
  simp

/-- C9 counterexample: the store holds a record for `"ab"` with importance
0.9; a Semantic-Store search for the candidate content at threshold 0.85
returns a hit — yet `processResponse` does not skip the candidate: it calls
`store()`, which replaces the record (importance drops to 0.3, source and
timestamps overwritten, stats reset). -/
theorem C9_counterexample :
    (Guide.search 384 [c9Row] "ab" 1 none 0.85 1000).1 ≠ [] ∧
    c9Row.importance = 0.9 ∧
    Guide.processResponse 384 [c9Row] [⟨"ab", Guide.GType.fact, 0.3⟩] "d2" 2000 =
      [Guide.Row.mk (Guide.idOf "ab") "ab" (Guide.localEmbedding 384 "ab")
        Guide.GType.fact ("conversation-" ++ "d2") 2000 0 2000 0.3] ∧
    ∀ r ∈ Guide.processResponse 384 [c9Row] [⟨"ab", Guide.GType.fact, 0.3⟩] "d2" 2000,
      r.importance = 0.3 := by
  refine ⟨?_, rfl, c9_process_eq, ?_⟩
  · rw [c9_search_eq]
    simp
  · intro r hr
    rw [c9_process_eq, List.mem_singleton] at hr
    subst hr
    rfl

/-- C9 (amended): `processResponse` performs **no** dedup search: every
extracted candidate is stored unconditionally via `store()` — even when the
Semantic Store search at threshold 0.85 returns a hit — so near-duplicates
are only collapsed when their content hashes coincide exactly. -/
theorem C9_processResponse_stores_despite_hit (d : ℕ) (st : List Guide.Row)
    (cand : Guide.Candidate) (today : String) (now : ℚ)
    (hhit : (Guide.search d st cand.content 1 none 0.85 now).1 ≠ []) :
    Guide.processResponse d st [cand] today now =
      (Guide.store d st cand.content cand.type ("conversation-" ++ today)
        cand.importance now).2 := rfl

theorem C9_processResponse_stores_despite_hit_witness :
    Guide.processResponse 384 [c9Row] [⟨"ab", Guide.GType.fact, 0.3⟩] "d2" 1000 =
      (Guide.store 384 [c9Row] "ab" Guide.GType.fact ("conversation-" ++ "d2")
        0.3 1000).2 :=
  C9_processResponse_stores_despite_hit 384 [c9Row]
    ⟨"ab", Guide.GType.fact, 0.3⟩ "d2" 1000
    (by rw [c9_search_eq]; simp)

section LexSort

open Classical

variable {α : Type}

theorem mem_insertLexDesc {score : α → ℝ} {x y : ℕ × α} {l : List (ℕ × α)} :
    y ∈ insertLexDesc score x l ↔ y = x ∨ y ∈ l := by
  induction l with
  | nil => simp [insertLexDesc]
  | cons z zs ih =>
      rw [insertLexDesc]
      split_ifs with h
      · rw [List.mem_cons, ih, List.mem_cons]
        tauto
      · rw [List.mem_cons]

theorem mem_sortLexDesc {score : α → ℝ} {y : ℕ × α} {l : List (ℕ × α)}
    (h : y ∈ sortLexDesc score l) : y ∈ l := by
  induction l with
  | nil => simpa [sortLexDesc] using h
  | cons z zs ih =>
      rw [sortLexDesc] at h
      rcases mem_insertLexDesc.mp h with rfl | h
      · exact List.mem_cons_self _ _
      · exact List.mem_cons_of_mem _ (ih h)

/-- When the inserted element carries the smallest original position, the
lexicographic insertion projects to the stable score-insertion. -/
theorem map_insertLexDesc (score : α → ℝ) (x : ℕ × α) (l : List (ℕ × α))
    (h : ∀ y ∈ l, x.1 < y.1) :
    (insertLexDesc score x l).map Prod.snd =
      insertScoreDesc score x.2 (l.map Prod.snd) := by
  induction l with
  | nil => simp [insertLexDesc, insertScoreDesc]
  | cons z zs ih =>
      rw [insertLexDesc, List.map_cons, insertScoreDesc]
      have hxz : x.1 < z.1 := h z (List.mem_cons_self _ _)
      by_cases hs : score x.2 < score z.2
      · rw [if_pos (Or.inl hs), if_pos hs, List.map_cons,
          ih (fun y hy => h y (List.mem_cons_of_mem _ hy))]
      · have hcond : ¬(score x.2 < score z.2 ∨
            (score x.2 = score z.2 ∧ z.1 < x.1)) := by
          rintro (hc | ⟨-, hlt⟩)
          · exact hs hc
          · omega
        rw [if_neg hcond, if_neg hs, List.map_cons, List.map_cons]

/-- On an index-sorted pair list, the lexicographic sort projects to the
stable sort by score alone: ties keep the original order. -/
theorem map_sortLexDesc (score : α → ℝ) (l : List (ℕ × α))
    (h : List.Pairwise (fun a b : ℕ × α => a.1 < b.1) l) :
    (sortLexDesc score l).map Prod.snd = sortScoreDesc score (l.map Prod.snd) := by
  induction l with
  | nil => rfl
  | cons x xs ih =>
      rw [List.pairwise_cons] at h
      rw [sortLexDesc, List.map_cons, sortScoreDesc, ← ih h.2]
      exact map_insertLexDesc score x _ (fun y hy => h.1 y (mem_sortLexDesc hy))

theorem map_snd_filter (pred : α → Bool) (pl : List (ℕ × α)) :
    (pl.filter (fun p => pred p.2)).map Prod.snd = (pl.map Prod.snd).filter pred := by
  induction pl with
  | nil => rfl
  | cons x xs ih =>
      rw [List.filter_cons, List.map_cons, List.filter_cons]
      by_cases h : pred x.2 = true
      · rw [if_pos h, if_pos h, List.map_cons, ih]
      · rw [if_neg h, if_neg h, ih]

theorem pairwise_enumFrom_lt (l : List α) (n : ℕ) :
    List.Pairwise (fun a b : ℕ × α => a.1 < b.1) (l.enumFrom n) := by
  induction l generalizing n with
  | nil => simp
  | cons x xs ih =>
      rw [List.enumFrom_cons, List.pairwise_cons]
      refine ⟨?_, ih (n + 1)⟩
      rintro ⟨i, y⟩ hy
      have := (List.mem_enumFrom hy).1
      simpa using this

theorem pairwise_enum_lt (l : List α) :
    List.Pairwise (fun a b : ℕ × α => a.1 < b.1) l.enum :=
  pairwise_enumFrom_lt l 0

/-- `map_snd_filter` at the exact predicate shape used by `searchSpec`. -/
theorem map_snd_filter_le (m : ℝ) (pl : List (ℕ × Template.SearchResult)) :
    (pl.filter (fun p => m ≤ p.2.similarity)).map Prod.snd =
      (pl.map Prod.snd).filter (fun r => m ≤ r.similarity) :=
  map_snd_filter (fun r => decide (m ≤ r.similarity)) pl

end LexSort

/-- C2 (amended): the list `search` returns is exactly its specification
with stable ties — descending blended score, ties in original row order. -/
theorem C2_search_characterization (d : ℕ) (st : List Template.Row)
    (query : String) (limit : ℕ) (minSimilarity : ℝ) (now : ℚ) :
    (Template.search d st query limit minSimilarity now).1 =
      Template.searchSpec d st query limit minSimilarity := by
  simp only [Template.search, Template.searchSpec]
  rw [map_sortLexDesc _ _
    (List.Pairwise.filter _ (pairwise_enum_lt _)),
    map_snd_filter_le, List.enum_map_snd]
theorem c2_state_eq :
    (Template.store 256 (Template.store 256 [] "ab" Template.MType.note "" 0.5 100).2
      "ab " Template.MType.note "" 0.5 200).2 = [c2Row1, c2Row2] := by
  have hne : Template.idOf "ab" ≠ Template.idOf "ab " := by decide
  simp [Template.store, c2Row1, c2Row2, hne]

theorem c2_search_eq :
    (Template.search 256 [c2Row1, c2Row2] "ab" 5 0.1 300).1 =
      [⟨c2Row1.toRecord, 0.9⟩, ⟨c2Row2.toRecord, 0.9⟩] := by
  have hab : cosineSimilarity (Template.embed 256 "ab") (Template.embed 256 "ab") = 1 :=
    cos_self_l2normalize _ (by decide)
  have hembeq : Template.embed 256 "ab " = Template.embed 256 "ab" := by
    rw [Template.embed, Template.embed,
      show Template.embedRaw 256 "ab " = Template.embedRaw 256 "ab" from by decide]
  simp only [Template.search, Template.scoreRow, List.map_cons, List.map_nil,
    c2Row1, c2Row2, hembeq]
  rw [hab]
  norm_num [sortScoreDesc, insertScoreDesc]

/-- C2 counterexample: a store built by `store("ab", ..., t=100)` then
`store("ab ", ..., t=200)` holds two records whose embeddings coincide
(`"ab "` trims to `"ab"`), so a search for `"ab"` scores both records
identically (`1*0.8 + 0.5*0.2 = 0.9`).  The claim requires the tie to be
broken by most-recent `last_accessed` — i.e. the `"ab "` record
(last_accessed 200) first — but `search` returns the records in original row
order: `"ab"` (last_accessed 100) first.  The comparator
`(a, b) => b.similarity - a.similarity` never consults `last_accessed`. -/
theorem C2_counterexample :
    (Template.store 256 (Template.store 256 [] "ab" Template.MType.note "" 0.5 100).2
      "ab " Template.MType.note "" 0.5 200).2 = [c2Row1, c2Row2] ∧
    (Template.search 256 [c2Row1, c2Row2] "ab" 5 0.1 300).1 =
      [⟨c2Row1.toRecord, 0.9⟩, ⟨c2Row2.toRecord, 0.9⟩] ∧
    c2Row1.lastAccessed = 100 ∧ c2Row2.lastAccessed = 200 :=
  ⟨c2_state_eq, c2_search_eq, rfl, rfl⟩
